import Mathlib

/-!
Shallow embedding of the ArgParse repository's `Dispatcher` class
(src/dispatcher.h, the snapshot whose `execute_command` spans lines 798-933).

Modelling conventions:
* `std::any` slots are `Option Value` (`none` = empty `std::any`).
* C++ exceptions escaping a function are `Except.error` / explicit error
  constructors; a caught exception inside `Dispatcher::convert` yields an
  empty `std::any`, i.e. `Except.ok none`.
* `std::type_index` is `TypeId := String` (one opaque comparable key per type).
* The seeded converter map holds the `int` and `std::string` converters; the
  `float`/`double` entries of the source operate on floating point values,
  which are outside the `Value` domain of this embedding and are exercised by
  no claim.
* User callbacks (`execute` thunks, invalid-command/args handler overrides)
  are modelled by their observable presence plus the data the dispatcher hands
  them; invoking the resolved `execute` thunk once with the converted argument
  vector is the `Outcome.executed` result.
-/

/-- A runtime value stored in a `std::any` slot: an `int` or a `std::string`. -/
inductive Value where
  | vInt : Int → Value
  | vStr : String → Value
deriving DecidableEq, Repr

/-- Model of `std::type_index`: an opaque comparable key naming a C++ type. -/
abbrev TypeId := String

/-- The conversion registry `unordered_map<type_index, function<any(string)>>`.
A converter returns `none` when the underlying C++ converter would throw
(that exception is caught inside `Dispatcher::convert`). The map has one entry
per key; `add_conversion` overwrites. -/
abbrev Conversions := List (TypeId × (String → Option Value))

/-- Assoc-list lookup for the conversion registry (`conversions.find(type)`). -/
def lookup_conversion : Conversions → TypeId → Option (String → Option Value)
  | [], _ => none
  | (t, f) :: rest, ty => if t = ty then some f else lookup_conversion rest ty

/-- Assoc-list overwrite for the registry (`conversions[typeid(T)] = ...`). -/
def conversions_set : Conversions → TypeId → (String → Option Value) → Conversions
  | [], ty, f => [(ty, f)]
  | (t, g) :: rest, ty, f =>
    if t = ty then (t, f) :: rest else (t, g) :: conversions_set rest ty f

/-- Model of `std::stoi`: skip leading whitespace, optional sign, then at
least one decimal digit; trailing characters are ignored. `none` models the
thrown `std::invalid_argument` when no digits are found. (The `out_of_range`
overflow case is not modelled; `Int` is unbounded.) -/
def stoi (s : String) : Option Int :=
  let cs := s.data.dropWhile (fun c => c.isWhitespace)
  let signAndDigits : Int × List Char :=
    match cs with
    | '-' :: rest => (-1, rest)
    | '+' :: rest => (1, rest)
    | _ => (1, cs)
  let ds := signAndDigits.2.takeWhile Char.isDigit
  if ds.isEmpty then none
  else some (signAndDigits.1 * (ds.foldl (fun acc c => acc * 10 + (c.toNat - 48)) 0 : Nat))

/-- The converter map the `Dispatcher` constructor seeds (`int`, `string`;
see the file comment about `float`/`double`). -/
def builtin_conversions : Conversions :=
  [("int", fun s => (stoi s).map Value.vInt),
   ("string", fun s => some (Value.vStr s))]

/-- `Dispatcher::arg_t`: metadata for one declared parameter slot.
`flags` is the `unordered_map<string, any>`: a key mapped to `none` is a
positional flag (empty `std::any`, inserted by `add_positional_flag`), a key
mapped to `some v` is a value flag. `defv` is the `def` member (an optional
default, renamed because `def` is a Lean keyword). -/
structure arg_t where
  flags : List (String × Option Value)
  defv : Option Value
  name : String
  type : TypeId
deriving DecidableEq, Repr

/-- Assoc lookup in one parameter's flag map (`args[i].flags.find(flag)`).
`some none` means the key is present with an empty `std::any`. -/
def lookup_flag : List (String × Option Value) → String → Option (Option Value)
  | [], _ => none
  | (k, v) :: rest, f => if k = f then some v else lookup_flag rest f

/-- `flags[flag] = value`: unordered_map assignment (overwrite or insert). -/
def flag_assign : List (String × Option Value) → String → Option Value →
    List (String × Option Value)
  | [], k, v => [(k, v)]
  | (k', v') :: rest, k, v =>
    if k' = k then (k', v) :: rest else (k', v') :: flag_assign rest k v

/-- `flags[flag];` as used by `add_positional_flag`: `operator[]`
default-inserts an empty `std::any` only when the key is absent. -/
def flag_touch : List (String × Option Value) → String → List (String × Option Value)
  | [], k => [(k, none)]
  | (k', v') :: rest, k =>
    if k' = k then (k', v') :: rest else (k', v') :: flag_touch rest k

/-- `Dispatcher::dispatch_node_t`. `execute` records whether the
`std::function` execute thunk is set (non-empty); `invalid_command_func` /
`invalid_args_func` record whether the per-node handler overrides are set. -/
inductive dispatch_node_t where
  | mk (execute : Bool) (num_args : Nat) (args : List arg_t)
       (next : List (List String × dispatch_node_t))
       (invalid_command_msg : String) (invalid_args_msg : String)
       (invalid_command_func : Bool) (invalid_args_func : Bool)

namespace dispatch_node_t

def execute : dispatch_node_t → Bool
  | mk e _ _ _ _ _ _ _ => e

def num_args : dispatch_node_t → Nat
  | mk _ n _ _ _ _ _ _ => n

def args : dispatch_node_t → List arg_t
  | mk _ _ a _ _ _ _ _ => a

def next : dispatch_node_t → List (List String × dispatch_node_t)
  | mk _ _ _ nx _ _ _ _ => nx

def invalid_command_msg : dispatch_node_t → String
  | mk _ _ _ _ m _ _ _ => m

def invalid_args_msg : dispatch_node_t → String
  | mk _ _ _ _ _ m _ _ => m

def invalid_command_func : dispatch_node_t → Bool
  | mk _ _ _ _ _ _ f _ => f

def invalid_args_func : dispatch_node_t → Bool
  | mk _ _ _ _ _ _ _ f => f

def with_next (n : dispatch_node_t) (nx : List (List String × dispatch_node_t)) :
    dispatch_node_t :=
  match n with
  | mk e na a _ icm iam icf iaf => mk e na a nx icm iam icf iaf

def with_args (n : dispatch_node_t) (a : List arg_t) : dispatch_node_t :=
  match n with
  | mk e na _ nx icm iam icf iaf => mk e na a nx icm iam icf iaf

end dispatch_node_t

/-- A freshly constructed `dispatch_node_t()`: `execute` unset, `next` empty,
messages default to `""`, handler overrides unset. (`num_args` is an
uninitialized `int` in C++; it is never read before `add_command` sets it,
because every read is guarded by `execute` being set. We pick `0`.) -/
def empty_node : dispatch_node_t :=
  .mk false 0 [] [] "" "" false false

/-- `dispatch_node_t::find_next` over the children list: return the first
child one of whose labels equals `name` (source lines 489-501). -/
def find_next_in : List (List String × dispatch_node_t) → String → Option dispatch_node_t
  | [], _ => none
  | (labels, child) :: rest, name =>
    if name ∈ labels then some child else find_next_in rest name

def dispatch_node_t.find_next (n : dispatch_node_t) (name : String) :
    Option dispatch_node_t :=
  find_next_in n.next name

/-- `dispatch_node_t::get_next`: one representative label per child, in
insertion order (`next[i].first[0]`; label lists are never empty). -/
def dispatch_node_t.get_next (n : dispatch_node_t) : List String :=
  n.next.map (fun p => p.1.headD "")

/-- `dispatch_node_t::find_flag` (source lines 521-529): scan parameters in
index order; on the first parameter whose flag map contains `flag`, return its
index and the stored `std::any`. The matched `arg_t` is bundled in as well
because the caller immediately re-reads `cur->args[idx]` for its type. -/
def find_flag_from : List arg_t → Nat → String → Option (Nat × arg_t × Option Value)
  | [], _, _ => none
  | a :: rest, i, flag =>
    match lookup_flag a.flags flag with
    | some v => some (i, a, v)
    | none => find_flag_from rest (i + 1) flag

def dispatch_node_t.find_flag (n : dispatch_node_t) (flag : String) :
    Option (Nat × arg_t × Option Value) :=
  find_flag_from n.args 0 flag

/-- `dispatch_node_t::add_alias` over the children list (source lines
535-548): append `al` to the label list of the first child whose labels
contain `name`; `none` models the `return false` when no child matches. -/
def alias_children : List (List String × dispatch_node_t) → String → String →
    Option (List (List String × dispatch_node_t))
  | [], _, _ => none
  | (labels, c) :: rest, name, al =>
    if name ∈ labels then some ((labels ++ [al], c) :: rest)
    else (alias_children rest name al).map (fun r => (labels, c) :: r)

/-- In-place update of one list entry (C++ `v[idx] = f(v[idx])`); out-of-range
indices leave the list unchanged (every use in the dispatcher is guarded). -/
def modify_at : List α → Nat → (α → α) → List α
  | [], _, _ => []
  | x :: xs, 0, f => f x :: xs
  | x :: xs, n + 1, f => x :: modify_at xs n f

/-- The dispatcher state: the tree root, the conversion registry, and the
dispatcher-wide default diagnostic messages (`invalid_args_msg`,
`invalid_command_msg`, both default-constructed to `""`). The dispatcher-wide
`invalid_command_func` / `invalid_args_func` members are always set: they are
initialized with the built-in lambdas and `add_default_invalid_*_func` merely
replaces one callable with another, so they carry no presence bit here. -/
structure Dispatcher where
  root : dispatch_node_t
  conversions : Conversions
  invalid_args_msg : String
  invalid_command_msg : String

/-- The `Dispatcher()` constructor: a fresh root and the seeded registry. -/
def Dispatcher.empty : Dispatcher :=
  { root := empty_node
    conversions := builtin_conversions
    invalid_args_msg := ""
    invalid_command_msg := "" }

/-- `Dispatcher::convert` (source lines 586-596): missing converter throws a
`std::logic_error` (the `Except.error`); a registered converter is invoked
with any internal exception caught and turned into an empty `std::any`
(`f s = none`). -/
def Dispatcher.convert (cs : Conversions) (ty : TypeId) (s : String) :
    Except String (Option Value) :=
  match lookup_conversion cs ty with
  | some f => .ok (f s)
  | none => .error ("Missing proper conversion for argument " ++ s ++ ".")

/-- `Dispatcher::trim_flag` (source lines 677-686): drop the maximal run of
leading `-` characters; a token consisting only of `-` (or empty) is returned
unchanged. -/
def trim_flag (s : String) : String :=
  match s.data.dropWhile (fun c => c = '-') with
  | [] => s
  | rest => String.mk rest

/-- `Dispatcher::traverse_until` (source lines 628-647): walk the tree
greedily; stop (returning the count of consumed tokens and the deepest node)
at the first token whose first character is `-` or that matches no child
label, or when tokens run out. An empty token's `path[idx][0]` reads the
terminating NUL in C++, which is not `-`. -/
def Dispatcher.traverse_until : dispatch_node_t → List String → Nat × dispatch_node_t
  | cur, [] => (0, cur)
  | cur, tok :: rest =>
    if tok.data.head? = some '-' then (0, cur)
    else
      match cur.find_next tok with
      | none => (0, cur)
      | some nxt =>
        let r := Dispatcher.traverse_until nxt rest
        (r.1 + 1, r.2)

/-- `Dispatcher::traverse_entire` (source lines 615-626): exact resolution;
`none` models the thrown `std::logic_error("Failed to find path: ...")`. -/
def traverse_entire_from : dispatch_node_t → List String → Option dispatch_node_t
  | cur, [] => some cur
  | cur, name :: rest =>
    match cur.find_next name with
    | none => none
    | some nxt => traverse_entire_from nxt rest

/-- Rebuild the child list, applying `g` to the first child whose labels
contain `seg` (the pure counterpart of mutating through the pointer
`find_next` returns); `none` when no child matches or `g` fails. -/
def update_children : List (List String × dispatch_node_t) → String →
    (dispatch_node_t → Option dispatch_node_t) →
    Option (List (List String × dispatch_node_t))
  | [], _, _ => none
  | (labels, c) :: rest, seg, g =>
    if seg ∈ labels then (g c).map (fun c' => (labels, c') :: rest)
    else (update_children rest seg g).map (fun r => (labels, c) :: r)

/-- Resolve `path` exactly and transform the target node (`none` if the path
is absent or the transformation reports failure). This is the pure equivalent
of `traverse_entire` followed by mutation through the returned pointer. -/
def update_at_path (f : dispatch_node_t → Option dispatch_node_t) :
    dispatch_node_t → List String → Option dispatch_node_t
  | cur, [] => f cur
  | cur, seg :: rest =>
    (update_children cur.next seg (fun c => update_at_path f c rest)).map
      (fun nx => cur.with_next nx)

/-- Children-list step of `traverse_drill`: descend into the first child
whose labels contain `seg`, or append `({seg}, fresh)` when none matches
(source lines 649-663). -/
def drill_children : List (List String × dispatch_node_t) → String →
    (dispatch_node_t → dispatch_node_t) → dispatch_node_t →
    List (List String × dispatch_node_t)
  | [], seg, _, fresh => [([seg], fresh)]
  | (labels, c) :: rest, seg, g, fresh =>
    if seg ∈ labels then (labels, g c) :: rest
    else (labels, c) :: drill_children rest seg g fresh

/-- `Dispatcher::traverse_drill` composed with a final-node transformation:
walk `path` creating missing nodes, then apply `f` to the node reached. -/
def drill_path : dispatch_node_t → List String → (dispatch_node_t → dispatch_node_t) →
    dispatch_node_t
  | cur, [], f => f cur
  | cur, seg :: rest, f =>
    cur.with_next
      (drill_children cur.next seg (fun c => drill_path c rest f)
        (drill_path empty_node rest f))

/-- `Dispatcher::add_command_impl` applied at the drilled node (source lines
665-675): set the execute thunk, `num_args = N`, and one default-constructed
`arg_t` per declared parameter type (`args = { arg_t(Args{})... }`). -/
def set_command (types : List TypeId) (n : dispatch_node_t) : dispatch_node_t :=
  match n with
  | .mk _ _ _ nx icm iam icf iaf =>
    .mk true types.length (types.map fun t => ⟨[], none, "", t⟩) nx icm iam icf iaf

/-- `Dispatcher::add_command`: `path` plus the declared parameter type list
(derived in C++ from the handler's signature `void(Args...)`). -/
def Dispatcher.add_command (d : Dispatcher) (path : List String)
    (types : List TypeId) : Dispatcher :=
  { d with root := drill_path d.root path (set_command types) }

/-- Response selected for a "command not found" condition (source lines
807-838): the per-node handler override, else the per-node message, else the
dispatcher-wide default message, else the (always-present) dispatcher-wide
handler, which receives the node's child labels and the unmatched token. -/
inductive CmdResponse where
  | nodeFunc
  | nodeMsg (m : String)
  | defaultMsg (m : String)
  | defaultFunc (next : List String) (name : String)
deriving DecidableEq, Repr

/-- Response selected for an "invalid arguments" condition (source lines
910-929); the handler payloads (parameter names, per-token success marks,
path, raw input) are presentation data and are not carried here. -/
inductive ArgsResponse where
  | nodeFunc
  | nodeMsg (m : String)
  | defaultMsg (m : String)
  | defaultFunc
deriving DecidableEq, Repr

/-- Observable result of one `execute_command` dispatch.
`executed vals` is the single invocation of the resolved node's execute thunk
with the converted argument vector (in slot order). `thrown` is a C++
exception escaping `execute_command` (the `std::logic_error` from
`Dispatcher::convert`). `outOfBounds` marks the undefined behaviour of
indexing a `std::vector` at its size (see the positional loop). -/
inductive Outcome where
  | invalidCommand (r : CmdResponse)
  | invalidArgs (r : ArgsResponse)
  | executed (vals : List Value)
  | thrown (m : String)
  | outOfBounds
deriving DecidableEq, Repr

/-- The `if`/`else if` chain of source lines 808-837. -/
def choose_invalid_command_response (cur : dispatch_node_t) (dmsg : String)
    (next : List String) (name : String) : CmdResponse :=
  if cur.invalid_command_func then .nodeFunc
  else if cur.invalid_command_msg ≠ "" then .nodeMsg cur.invalid_command_msg
  else if dmsg ≠ "" then .defaultMsg dmsg
  else .defaultFunc next name

/-- The `if`/`else if` chain of source lines 911-927. -/
def choose_invalid_args_response (cur : dispatch_node_t) (dmsg : String) :
    ArgsResponse :=
  if cur.invalid_args_func then .nodeFunc
  else if cur.invalid_args_msg ≠ "" then .nodeMsg cur.invalid_args_msg
  else if dmsg ≠ "" then .defaultMsg dmsg
  else .defaultFunc

/-- Result of the flag-scanning loop (source lines 848-877). -/
inductive ScanResult where
  | thrown (m : String)
  | ok (args : List (Option Value)) (flagged : List Bool) (attempted : List (List Nat))

/-- Result of the positional-assignment loop (source lines 879-889). -/
inductive PosResult where
  | thrown (m : String)
  | oob
  | ok (args : List (Option Value)) (attempted : List (List Nat))

/-- The flag-scanning loop of `execute_command` (source lines 848-877),
processing `names[i..]`. A token is skipped when `trim_flag` strips nothing
(not flag-shaped) or when `find_flag` misses (`idx == -1`, unknown flag:
`continue`, leaving it unconsumed). A matched flag records itself in
`attempted[idx]` and `flags[i]`; a value flag (`value.has_value()`) stores its
fixed value, a positional flag additionally consumes the following token,
converting it for the slot's declared type — unless it is the last token
(`i >= names.size()`, in which case the loop just ends).

The C++ `flags` vector is allocated with `num_args` entries but indexed by
token position throughout; the bits beyond its size land in the allocated
word of `vector<bool>` and read back as written (value-initialized to
`false`). `flagged` is given the token extent here, which is the effective
behaviour; the slot-indexed vectors (`args`, `attempted`) are modelled at
their true size. -/
def flag_scan (cs : Conversions) (params : List arg_t) :
    List String → Nat → List (Option Value) → List Bool → List (List Nat) →
    ScanResult
  | [], _, args, flagged, attempted => .ok args flagged attempted
  | tok :: rest, i, args, flagged, attempted =>
    if (trim_flag tok).length = tok.length then
      flag_scan cs params rest (i + 1) args flagged attempted
    else
      match find_flag_from params 0 (trim_flag tok) with
      | none => flag_scan cs params rest (i + 1) args flagged attempted
      | some (idx, p, value) =>
        let attempted' := modify_at attempted idx (fun l => l ++ [i])
        let flagged' := flagged.set i true
        match value with
        | some v =>
          flag_scan cs params rest (i + 1) (args.set idx (some v)) flagged' attempted'
        | none =>
          match rest with
          | [] => .ok args flagged' attempted'
          | val :: rest' =>
            let flagged'' := flagged'.set (i + 1) true
            match Dispatcher.convert cs p.type val with
            | .error m => .thrown m
            | .ok c =>
              flag_scan cs params rest' (i + 2) (args.set idx c) flagged''
                (modify_at attempted' idx (fun l => l ++ [i + 1]))

/-- The `while(idx < args.size() && !attempted[idx].empty()) idx++;` skip of
source lines 883-885, walking `attempted` from `idx`. -/
def skip_from : List (List Nat) → Nat → Nat
  | [], acc => acc
  | l :: rest, acc => if l.isEmpty then acc else skip_from rest (acc + 1)

def skip_attempted (attempted : List (List Nat)) (idx : Nat) : Nat :=
  skip_from (attempted.drop idx) idx

/-- The positional-assignment loop of `execute_command` (source lines
879-889): each token not consumed by a flag is converted into the lowest
still-unattempted slot. After the guarded skip the source indexes
`args[idx]` / `cur->args[idx]` / `attempted[idx]` without re-checking the
bound, so when every slot is already attempted (`idx == args.size()`) the
access is out of bounds (`PosResult.oob`). -/
def positional_fill (cs : Conversions) (params : List arg_t) (flagged : List Bool) :
    List String → Nat → Nat → List (Option Value) → List (List Nat) → PosResult
  | [], _, _, args, attempted => .ok args attempted
  | tok :: rest, i, idx, args, attempted =>
    if flagged.getD i false then
      positional_fill cs params flagged rest (i + 1) idx args attempted
    else
      let idx' := skip_attempted attempted idx
      if idx' < args.length then
        match params.get? idx' with
        | none => .oob
        | some p =>
          match Dispatcher.convert cs p.type tok with
          | .error m => .thrown m
          | .ok c =>
            positional_fill cs params flagged rest (i + 1) idx'
              (args.set idx' c) (modify_at attempted idx' (fun l => l ++ [i]))
      else .oob

/-- The default-substitution loop of source lines 891-896: a slot holding an
empty `std::any` receives the registered default when one exists; the loop
runs while `i < args.size() && i < cur->args.size()`. -/
def fill_defaults : List (Option Value) → List arg_t → List (Option Value)
  | [], _ => []
  | a :: rest, [] => a :: rest
  | a :: rest, p :: ps =>
    (if a.isNone ∧ p.defv.isSome then p.defv else a) :: fill_defaults rest ps

/-- The argument phase of `execute_command` (source lines 840-932): scan
flags, place positional tokens, substitute defaults, then either report
invalid arguments (`suc == false` iff some slot holds no value) or invoke the
execute thunk once with the slot values in declared order. -/
def arg_phase (cs : Conversions) (cur : dispatch_node_t) (damsg : String)
    (names : List String) : Outcome :=
  match flag_scan cs cur.args names 0
      (List.replicate cur.num_args none)
      (List.replicate names.length false)
      (List.replicate cur.num_args []) with
  | .thrown m => .thrown m
  | .ok args flagged attempted =>
    match positional_fill cs cur.args flagged names 0 0 args attempted with
    | .thrown m => .thrown m
    | .oob => .outOfBounds
    | .ok args _ =>
      let args := fill_defaults args cur.args
      if args.all Option.isSome then .executed (args.filterMap id)
      else .invalidArgs (choose_invalid_args_response cur damsg)

/-- `Dispatcher::execute_command(int argc, const char* argv[])` (source lines
798-933). `argv.head` is the program name (`names` starts at `argv[1]`).
Phase 1 resolves the path with `traverse_until`; a node without an execute
thunk reports "command not found" with the unmatched token
(`names[idx]`, or `""` when the tokens were exhausted). Phase 2 is
`arg_phase` on the tokens after the consumed prefix. -/
def Dispatcher.execute_command (d : Dispatcher) (argv : List String) : Outcome :=
  let names := argv.drop 1
  let r := Dispatcher.traverse_until d.root names
  if ¬ r.2.execute then
    .invalidCommand
      (choose_invalid_command_response r.2 d.invalid_command_msg
        r.2.get_next (names.getD r.1 ""))
  else
    arg_phase d.conversions r.2 d.invalid_args_msg (names.drop r.1)

/-- `Dispatcher::add_conversion<T>`: unconditional overwrite of the registry
entry for `T` (source lines 939-944). -/
def Dispatcher.add_conversion (d : Dispatcher) (ty : TypeId)
    (f : String → Option Value) : Dispatcher :=
  { d with conversions := conversions_set d.conversions ty f }

/-- `Dispatcher::add_positional_flag` (source lines 957-965): resolve the
path exactly (`none` models the thrown logic_error for a missing path), check
`idx < num_args` (`none` models `index_failed`'s throw), then default-insert
the flag key with an empty `std::any`. -/
def Dispatcher.add_positional_flag (d : Dispatcher) (path : List String)
    (idx : Nat) (flag : String) : Option Dispatcher :=
  (update_at_path
      (fun n =>
        if idx ≥ n.num_args then none
        else some (n.with_args
          (modify_at n.args idx (fun a => { a with flags := flag_touch a.flags flag }))))
      d.root path).map
    (fun r => { d with root := r })

/-- `Dispatcher::add_value_flag` (source lines 967-976): as above but the
flag key is assigned the fixed value. -/
def Dispatcher.add_value_flag (d : Dispatcher) (path : List String)
    (idx : Nat) (flag : String) (v : Value) : Option Dispatcher :=
  (update_at_path
      (fun n =>
        if idx ≥ n.num_args then none
        else some (n.with_args
          (modify_at n.args idx
            (fun a => { a with flags := flag_assign a.flags flag (some v) }))))
      d.root path).map
    (fun r => { d with root := r })

/-- `Dispatcher::add_default` (source lines 978-988): store the (typed)
default value in the slot's `def` member. -/
def Dispatcher.add_default (d : Dispatcher) (path : List String) (idx : Nat)
    (v : Value) : Option Dispatcher :=
  (update_at_path
      (fun n =>
        if idx ≥ n.num_args then none
        else some (n.with_args
          (modify_at n.args idx (fun a => { a with defv := some v }))))
      d.root path).map
    (fun r => { d with root := r })

/-- `Dispatcher::add_specific_invalid_args_message` (source lines 990-994). -/
def Dispatcher.add_specific_invalid_args_message (d : Dispatcher)
    (path : List String) (msg : String) : Option Dispatcher :=
  (update_at_path
      (fun n =>
        match n with
        | .mk e na a nx icm _ icf iaf => some (.mk e na a nx icm msg icf iaf))
      d.root path).map
    (fun r => { d with root := r })

/-- `Dispatcher::add_specific_invalid_command_message` (source lines
996-1000). -/
def Dispatcher.add_specific_invalid_command_message (d : Dispatcher)
    (path : List String) (msg : String) : Option Dispatcher :=
  (update_at_path
      (fun n =>
        match n with
        | .mk e na a nx _ iam icf iaf => some (.mk e na a nx msg iam icf iaf))
      d.root path).map
    (fun r => { d with root := r })

/-- `Dispatcher::add_specific_invalid_command_func` (source lines 1016-1020):
the per-node handler override becomes set. -/
def Dispatcher.add_specific_invalid_command_func (d : Dispatcher)
    (path : List String) : Option Dispatcher :=
  (update_at_path
      (fun n =>
        match n with
        | .mk e na a nx icm iam _ iaf => some (.mk e na a nx icm iam true iaf))
      d.root path).map
    (fun r => { d with root := r })

/-- `Dispatcher::add_specific_invalid_args_func` (source lines 1010-1014). -/
def Dispatcher.add_specific_invalid_args_func (d : Dispatcher)
    (path : List String) : Option Dispatcher :=
  (update_at_path
      (fun n =>
        match n with
        | .mk e na a nx icm iam icf _ => some (.mk e na a nx icm iam icf true))
      d.root path).map
    (fun r => { d with root := r })

/-- `Dispatcher::add_default_invalid_args_message` (source lines 1002-1004). -/
def Dispatcher.add_default_invalid_args_message (d : Dispatcher) (msg : String) :
    Dispatcher :=
  { d with invalid_args_msg := msg }

/-- `Dispatcher::add_default_invalid_command_message` (source lines
1006-1008). -/
def Dispatcher.add_default_invalid_command_message (d : Dispatcher) (msg : String) :
    Dispatcher :=
  { d with invalid_command_msg := msg }

/-- `Dispatcher::add_default_invalid_command_func` (source lines 1026-1028):
replaces the always-present `invalid_command_func` member with another
callable. No presence bit changes — which is precisely why the message check
of line 823 still precedes the call of line 835 after this setter runs. -/
def Dispatcher.add_default_invalid_command_func (d : Dispatcher) : Dispatcher :=
  d

/-- `Dispatcher::add_default_invalid_args_func` (source lines 1022-1024);
same remark as for the command variant. -/
def Dispatcher.add_default_invalid_args_func (d : Dispatcher) : Dispatcher :=
  d

/-- How `Dispatcher::add_alias` (source lines 946-955) can fail. -/
inductive AliasError where
  /-- `path[path.size() - 1]` evaluated on an empty vector: undefined
  behaviour (the original path was empty, or — after `pop_back` — had one
  segment). -/
  | emptyPathIndex
  /-- `traverse_entire` threw (the popped path is absent from the tree). -/
  | pathNotFound
  /-- the node-level `add_alias` returned `false`, so
  `throw std::logic_error("Failed to alias ...")` fires. -/
  | aliasFailed
deriving DecidableEq, Repr

/-- `Dispatcher::add_alias` (source lines 946-955), faithfully including its
slip: the function saves `orig = path[path.size()-1]`, pops the last segment,
resolves the POPPED path, and then searches the children of the node reached
for `path[path.size()-1]` — which after the pop is the SECOND-TO-LAST segment
of the original path, not `orig` (never read again). For a single-segment
path the popped path is empty and `path[path.size()-1]` indexes an empty
vector. -/
def Dispatcher.add_alias (d : Dispatcher) (path : List String) (al : String) :
    Except AliasError Dispatcher :=
  match path with
  | [] => .error .emptyPathIndex
  | _ :: _ =>
    let popped := path.dropLast
    match traverse_entire_from d.root popped with
    | none => .error .pathNotFound
    | some cur =>
      match popped.getLast? with
      | none => .error .emptyPathIndex
      | some name =>
        match alias_children cur.next name al with
        | none => .error .aliasFailed
        | some _ =>
          match update_at_path
              (fun n => (alias_children n.next name al).map n.with_next)
              d.root popped with
          | none => .error .pathNotFound
          | some root' => .ok { d with root := root' }

/-- `Dispatcher::levenshtein` (source lines 688-709). The C++ fills the
`(N+1) x (M+1)` table bottom-up with base rows `dp[N][j] = M - j`,
`dp[i][M] = N - i` and the recurrence
`dp[i][j] = min(dp[i+1][j+1] + (s1[i] != s2[j]), 1 + dp[i][j+1], 1 + dp[i+1][j])`;
this function computes the same recurrence (`dp[i][j]` is this function
applied to the suffixes starting at `i` and `j`). -/
def Dispatcher.levenshtein : List Char → List Char → Nat
  | [], l2 => l2.length
  | l1, [] => l1.length
  | c1 :: l1, c2 :: l2 =>
    min (Dispatcher.levenshtein l1 l2 + (if c1 = c2 then 0 else 1))
      (min (1 + Dispatcher.levenshtein (c1 :: l1) l2)
        (1 + Dispatcher.levenshtein l1 (c2 :: l2)))
termination_by l1 l2 => l1.length + l2.length

/-- `Dispatcher::find_close` (source lines 711-720): the candidate labels
whose distance to `s` is at most `threshold`, in order. -/
def Dispatcher.find_close (names : List String) (s : String) (threshold : Nat) :
    List String :=
  names.filter (fun name => Dispatcher.levenshtein name.data s.data ≤ threshold)

/-- The suggestion list printed by the built-in `invalid_command_func`
(source lines 722-747): the labels within distance 2 of the unmatched token
when any qualify, otherwise the full list of child labels. -/
def invalid_command_suggestions (next : List String) (name : String) : List String :=
  let closest := Dispatcher.find_close next name 2
  if closest.isEmpty then next else closest

/-! Helper lemmas about the list primitives used by the loops. -/

theorem getD_replicate (a : α) : ∀ (n i : Nat), (List.replicate n a).getD i a = a
  | 0, _ => by simp [List.getD]
  | _ + 1, 0 => by simp [List.replicate]
  | n + 1, i + 1 => by
    simp only [List.replicate, List.getD_cons_succ]
    exact getD_replicate a n i

theorem set_getD_ne (d : α) :
    ∀ (l : List α) (k j : Nat) (b : α), j ≠ k → (l.set k b).getD j d = l.getD j d
  | [], _, _, _, _ => by simp
  | _ :: _, 0, 0, _, h => absurd rfl h
  | _ :: _, 0, _ + 1, _, _ => by simp [List.set, List.getD]
  | _ :: _, _ + 1, 0, _, _ => by simp [List.set, List.getD]
  | x :: xs, k + 1, j + 1, b, h => by
    simpa [List.set, List.getD] using set_getD_ne d xs k j b (by omega)

theorem set_append_len (b : α) :
    ∀ (l₁ : List α) (a : α) (l₂ : List α), (l₁ ++ a :: l₂).set l₁.length b = l₁ ++ b :: l₂
  | [], _, _ => rfl
  | x :: xs, a, l₂ => by simp [List.set, set_append_len b xs a l₂]

theorem modify_at_append_len (f : α → α) :
    ∀ (l₁ : List α) (a : α) (l₂ : List α),
      modify_at (l₁ ++ a :: l₂) l₁.length f = l₁ ++ f a :: l₂
  | [], _, _ => rfl
  | x :: xs, a, l₂ => by simp [modify_at, modify_at_append_len f xs a l₂]

theorem get?_append_len : ∀ (l₁ : List α) (a : α) (l₂ : List α),
    (l₁ ++ a :: l₂).get? l₁.length = some a
  | [], _, _ => rfl
  | x :: xs, a, l₂ => by simpa using get?_append_len xs a l₂

theorem skip_from_spec : ∀ (l₁ l₂ : List (List Nat)) (acc : Nat),
    (∀ x ∈ l₁, x ≠ []) → (l₂ = [] ∨ l₂.head? = some []) →
    skip_from (l₁ ++ l₂) acc = acc + l₁.length
  | [], [], acc, _, _ => rfl
  | [], l :: ls, acc, _, h₂ => by
    have hl : l = [] := by
      rcases h₂ with h | h
      · exact absurd h (by simp)
      · simpa using h
    subst hl
    simp [skip_from, List.isEmpty]
  | x :: xs, l₂, acc, h₁, h₂ => by
    have hx : x ≠ [] := h₁ x (by simp)
    have hxe : x.isEmpty = false := by
      cases x with
      | nil => exact absurd rfl hx
      | cons a as => rfl
    simp only [List.cons_append, skip_from, hxe]
    rw [if_neg (by simp [hxe])]
    rw [show xs.append l₂ = xs ++ l₂ from rfl]
    rw [skip_from_spec xs l₂ (acc + 1) (fun y hy => h₁ y (by simp [hy])) h₂]
    simp [List.length_cons]; omega

theorem skip_attempted_spec (attPre : List (List Nat)) (k idx : Nat)
    (hidx : idx ≤ attPre.length)
    (hne : ∀ x ∈ attPre.drop idx, x ≠ []) :
    skip_attempted (attPre ++ List.replicate k []) idx = attPre.length := by
  unfold skip_attempted
  rw [List.drop_append_of_le_length hidx]
  rw [skip_from_spec (attPre.drop idx) (List.replicate k []) idx hne
    (by
      cases k with
      | zero => exact Or.inl rfl
      | succ k => exact Or.inr (by simp [List.replicate]))]
  rw [List.length_drop]
  omega

theorem fill_defaults_keeps (v : Value) :
    ∀ (args : List (Option Value)) (params : List arg_t) (i : Nat),
      args.getD i none = some v → (fill_defaults args params).getD i none = some v
  | [], _, i, h => by simp [List.getD] at h
  | a :: rest, [], i, h => by simpa [fill_defaults] using h
  | a :: rest, p :: ps, 0, h => by
    simp only [List.getD_cons_zero] at h
    simp [fill_defaults, h]
  | a :: rest, p :: ps, i + 1, h => by
    simp only [List.getD_cons_succ] at h
    simp only [fill_defaults, List.getD_cons_succ]
    exact fill_defaults_keeps v rest ps i h

theorem fill_defaults_fills :
    ∀ (args : List (Option Value)) (params : List arg_t) (i : Nat)
      (hp : i < params.length), i < args.length → args.getD i none = none →
      (fill_defaults args params).getD i none = (params.get ⟨i, hp⟩).defv
  | [], _, i, _, ha, _ => by simp at ha
  | a :: rest, [], i, hp, _, _ => by simp at hp
  | a :: rest, p :: ps, 0, hp, ha, h => by
    simp only [List.getD_cons_zero] at h
    subst h
    cases hd : p.defv with
    | none => simp [fill_defaults, hd]
    | some w => simp [fill_defaults, hd]
  | a :: rest, p :: ps, i + 1, hp, ha, h => by
    simp only [List.getD_cons_succ] at h
    simp only [fill_defaults, List.getD_cons_succ, List.get]
    exact fill_defaults_fills rest ps i (by simpa using Nat.lt_of_succ_lt_succ hp)
      (by simpa using Nat.lt_of_succ_lt_succ ha) h

theorem fill_defaults_map_some : ∀ (vals : List Value) (params : List arg_t),
    fill_defaults (vals.map some) params = vals.map some
  | [], _ => rfl
  | v :: vs, [] => rfl
  | v :: vs, p :: ps => by simp [fill_defaults, fill_defaults_map_some vs ps]

theorem filterMap_id_map_some : ∀ (l : List Value), (l.map some).filterMap id = l
  | [] => rfl
  | v :: vs => by simp [filterMap_id_map_some vs]

theorem flag_scan_all_plain (cs : Conversions) (params : List arg_t) :
    ∀ (ts : List String) (i : Nat) (args : List (Option Value)) (flagged : List Bool)
      (attempted : List (List Nat)),
      (∀ t ∈ ts, (trim_flag t).length = t.length) →
      flag_scan cs params ts i args flagged attempted = .ok args flagged attempted
  | [], _, _, _, _, _ => rfl
  | t :: ts, i, args, flagged, attempted, h => by
    have ht := h t (by simp)
    simp only [flag_scan, if_pos ht]
    exact flag_scan_all_plain cs params ts (i + 1) args flagged attempted
      (fun x hx => h x (by simp [hx]))

theorem flag_scan_lower_flags (cs : Conversions) (params : List arg_t) :
    ∀ (ts : List String) (i : Nat) (args : List (Option Value)) (flagged : List Bool)
      (attempted : List (List Nat)) (a : List (Option Value)) (fl : List Bool)
      (t : List (List Nat)) (j : Nat),
      flag_scan cs params ts i args flagged attempted = ScanResult.ok a fl t →
      j < i → fl.getD j false = flagged.getD j false
  | [], i, args, flagged, attempted, a, fl, t, j, h, hj => by
    simp only [flag_scan] at h
    cases h
    rfl
  | tok :: rest, i, args, flagged, attempted, a, fl, t, j, h, hj => by
    simp only [flag_scan] at h
    split at h
    · exact flag_scan_lower_flags cs params rest (i + 1) _ _ _ _ _ _ j h (by omega)
    · split at h
      · exact flag_scan_lower_flags cs params rest (i + 1) _ _ _ _ _ _ j h (by omega)
      · split at h
        · rw [flag_scan_lower_flags cs params rest (i + 1) _ _ _ _ _ _ j h (by omega)]
          exact set_getD_ne false flagged i j true (by omega)
        · split at h
          · cases h
            exact set_getD_ne false flagged i j true (by omega)
          · split at h
            · exact absurd h (by simp)
            · rw [flag_scan_lower_flags cs params _ (i + 2) _ _ _ _ _ _ j h (by omega)]
              rw [set_getD_ne false (flagged.set i true) (i + 1) j true (by omega)]
              exact set_getD_ne false flagged i j true (by omega)
termination_by ts => ts.length

theorem positional_fill_assigns (cs : Conversions) (flagged : List Bool)
    (hflag : ∀ j, flagged.getD j false = false) :
    ∀ (ts : List String) (psRest : List arg_t) (vals : List Value)
      (psPre : List arg_t) (argsPre : List (Option Value)) (attPre : List (List Nat))
      (i idx : Nat),
      psPre.length = attPre.length → argsPre.length = attPre.length →
      idx ≤ attPre.length → (∀ x ∈ attPre.drop idx, x ≠ []) →
      ts.length = psRest.length → vals.length = psRest.length →
      (∀ j (hj : j < ts.length) (hp : j < psRest.length) (hv : j < vals.length),
        Dispatcher.convert cs (psRest.get ⟨j, hp⟩).type (ts.get ⟨j, hj⟩)
          = .ok (some (vals.get ⟨j, hv⟩))) →
      ∃ att', positional_fill cs (psPre ++ psRest) flagged ts i idx
          (argsPre ++ List.replicate psRest.length none)
          (attPre ++ List.replicate psRest.length [])
        = PosResult.ok (argsPre ++ vals.map some) att' := by
  intro ts
  induction ts with
  | nil =>
    intro psRest vals psPre argsPre attPre i idx _ _ _ _ hlen hvlen _
    simp only [List.length_nil] at hlen
    have h1 : psRest = [] := List.eq_nil_of_length_eq_zero hlen.symm
    subst h1
    simp only [List.length_nil] at hvlen
    have h2 : vals = [] := List.eq_nil_of_length_eq_zero hvlen
    subst h2
    exact ⟨attPre ++ [], by simp [positional_fill]⟩
  | cons t ts' ih =>
    intro psRest vals psPre argsPre attPre i idx hplen halen hidx hne hlen hvlen hconv
    cases psRest with
    | nil => simp at hlen
    | cons p ps' =>
      cases vals with
      | nil => simp at hvlen
      | cons v vs' =>
        have hskip : skip_attempted (attPre ++ List.replicate (p :: ps').length []) idx
            = attPre.length := skip_attempted_spec attPre _ idx hidx hne
        have hget : (psPre ++ p :: ps').get? attPre.length = some p := by
          rw [← hplen]; exact get?_append_len psPre p ps'
        have hcv : Dispatcher.convert cs p.type t = .ok (some v) :=
          hconv 0 (by simp) (by simp) (by simp)
        have hset : (argsPre ++ List.replicate (p :: ps').length (none : Option Value)).set
            attPre.length (some v) = argsPre ++ some v :: List.replicate ps'.length none := by
          rw [show List.replicate (p :: ps').length (none : Option Value)
              = none :: List.replicate ps'.length none from rfl]
          rw [← halen]
          exact set_append_len (some v) argsPre none (List.replicate ps'.length none)
        have hmod : modify_at (attPre ++ List.replicate (p :: ps').length [])
            attPre.length (fun l => l ++ [i])
            = attPre ++ [i] :: List.replicate ps'.length [] := by
          rw [show List.replicate (p :: ps').length ([] : List Nat)
              = [] :: List.replicate ps'.length [] from rfl]
          exact modify_at_append_len (fun l => l ++ [i]) attPre [] (List.replicate ps'.length [])
        simp only [positional_fill, hflag i, if_neg (Bool.false_ne_true ∘ id)]
        rw [hskip]
        rw [if_pos (by simp [List.length_append, List.length_replicate]; omega)]
        simp only [hget]
        simp only [hcv]
        rw [hset, hmod]
        have := ih ps' vs' (psPre ++ [p]) (argsPre ++ [some v]) (attPre ++ [[i]])
          (i + 1) attPre.length
          (by simp [hplen]) (by simp [halen]) (by simp)
          (by
            intro x hx
            rw [List.drop_left] at hx
            simp at hx
            simp [hx])
          (by simpa using hlen) (by simpa using hvlen)
          (fun j hj hp hv =>
            hconv (j + 1) (by simpa using Nat.succ_lt_succ hj)
              (by simpa using Nat.succ_lt_succ hp) (by simpa using Nat.succ_lt_succ hv))
        obtain ⟨att', ha⟩ := this
        refine ⟨att', ?_⟩
        rw [show (argsPre ++ [some v]) ++ List.replicate ps'.length (none : Option Value)
            = argsPre ++ some v :: List.replicate ps'.length none by simp] at ha
        rw [show (attPre ++ [[i]]) ++ List.replicate ps'.length ([] : List Nat)
            = attPre ++ [i] :: List.replicate ps'.length [] by simp] at ha
        rw [show (psPre ++ [p]) ++ ps' = psPre ++ p :: ps' by simp] at ha
        rw [ha]
        simp

theorem mathlib_levenshtein_nil_left (l2 : List Char) :
    levenshtein Levenshtein.defaultCost [] l2 = l2.length := by
  induction l2 with
  | nil => simp
  | cons y ys ih => simp [levenshtein_nil_cons, ih]; omega

theorem mathlib_levenshtein_nil_right (l1 : List Char) :
    levenshtein Levenshtein.defaultCost l1 [] = l1.length := by
  induction l1 with
  | nil => simp
  | cons x xs ih => simp [levenshtein_cons_nil, ih]; omega

/-- The table recurrence of `Dispatcher::levenshtein` computes the
Levenshtein distance (Mathlib's `levenshtein` with `defaultCost`, i.e. the
minimum number of single-character insert/delete/substitute operations). -/
theorem dispatcher_levenshtein_eq :
    ∀ (l1 l2 : List Char),
      Dispatcher.levenshtein l1 l2 = levenshtein Levenshtein.defaultCost l1 l2
  | [], l2 => by
    simp [Dispatcher.levenshtein, mathlib_levenshtein_nil_left]
  | c1 :: l1, [] => by
    simp [Dispatcher.levenshtein, mathlib_levenshtein_nil_right]
    omega
  | c1 :: l1, c2 :: l2 => by
    rw [Dispatcher.levenshtein]
    rw [dispatcher_levenshtein_eq l1 l2, dispatcher_levenshtein_eq (c1 :: l1) l2,
      dispatcher_levenshtein_eq l1 (c2 :: l2)]
    rw [levenshtein_cons_cons]
    simp only [Levenshtein.defaultCost_delete, Levenshtein.defaultCost_insert,
      Levenshtein.defaultCost_substitute]
    by_cases hc : c1 = c2 <;> simp [hc] <;> omega
termination_by l1 l2 => l1.length + l2.length

/-! The claim theorems. -/

/-- Claim C1: for every registered command of arity N whose declared types
all have registered converters, and every token sequence whose path segments
resolve exactly to that command's node followed by N non-flag tokens each
convertible to the corresponding declared type, `execute_command` invokes the
registered handler exactly once, with the converted values, in declared
parameter order. (Here `hres` states that `traverse_until` consumes exactly
the `pre` prefix and stops at `node`; `hconv` states per-slot convertibility,
which in particular requires a registered converter for each declared type;
the conclusion `Outcome.executed vals` is the single invocation of the
node's execute thunk with the converted values in slot order.) -/
theorem C1_round_trip_dispatch (d : Dispatcher) (prog : String)
    (pre post : List String) (node : dispatch_node_t) (vals : List Value)
    (hres : Dispatcher.traverse_until d.root (pre ++ post) = (pre.length, node))
    (hexec : node.execute = true)
    (harity : node.num_args = post.length)
    (hargs : node.args.length = post.length)
    (hplain : ∀ t ∈ post, (trim_flag t).length = t.length)
    (hvals : vals.length = post.length)
    (hconv : ∀ j (hj : j < post.length) (hp : j < node.args.length)
        (hv : j < vals.length),
      Dispatcher.convert d.conversions (node.args.get ⟨j, hp⟩).type (post.get ⟨j, hj⟩)
        = .ok (some (vals.get ⟨j, hv⟩))) :
    d.execute_command (prog :: (pre ++ post)) = .executed vals := by
  unfold Dispatcher.execute_command
  simp only [List.drop_succ_cons, List.drop_zero, hres, hexec]
  rw [if_neg (by simp)]
  rw [List.drop_left]
  unfold arg_phase
  rw [flag_scan_all_plain d.conversions node.args post 0 _ _ _ hplain]
  have hrep : List.replicate node.num_args (none : Option Value)
      = [] ++ List.replicate node.args.length none := by simp [harity, hargs]
  have hrep2 : List.replicate node.num_args ([] : List Nat)
      = [] ++ List.replicate node.args.length [] := by simp [harity, hargs]
  rw [hrep, hrep2]
  have hmain := positional_fill_assigns d.conversions
    (List.replicate post.length false)
    (fun j => getD_replicate false post.length j)
    post node.args vals [] [] [] 0 0 rfl rfl (by simp) (by simp)
    hargs.symm (by omega) hconv
  rw [show ([] : List arg_t) ++ node.args = node.args from rfl] at hmain
  obtain ⟨att', hpos⟩ := hmain
  simp only [List.nil_append] at hpos
  simp only [List.nil_append, hpos, fill_defaults_map_some, filterMap_id_map_some]
  rw [if_pos (by simp)]

/-- Witness dispatcher for C1: the SingleArgumentTest registration
`add_command({"bar","baz","foo"}, handler(int))`. -/
def demo_c1 : Dispatcher := Dispatcher.empty.add_command ["bar", "baz", "foo"] ["int"]

/-- The node `demo_c1` stores at the end of its path. -/
def demo_c1_node : dispatch_node_t :=
  .mk true 1 [⟨[], none, "", "int"⟩] [] "" "" false false

theorem C1_round_trip_dispatch_witness :
    demo_c1.execute_command ["prog", "bar", "baz", "foo", "500"]
      = .executed [Value.vInt 500] :=
  C1_round_trip_dispatch demo_c1 "prog" ["bar", "baz", "foo"] ["500"]
    demo_c1_node [Value.vInt 500] rfl rfl rfl rfl (by decide) rfl
    (fun j hj hp hv => by
      simp only [List.length_cons, List.length_nil] at hj
      have hz : j = 0 := by omega
      subst hz
      rfl)

/-- Dispatcher for the C2 counterexample: both the dispatcher-wide default
message and the dispatcher-wide default handler have been set
(`add_default_invalid_command_message("m")` and
`add_default_invalid_command_func(...)`). -/
def demo_c2 : Dispatcher :=
  (Dispatcher.empty.add_default_invalid_command_message "m").add_default_invalid_command_func

/-- Claim C2, counterexample: with both a dispatcher-wide default handler and
a dispatcher-wide default message set, resolving to a command-less node makes
the code print the default MESSAGE (line 823 is checked before the handler
call of line 835) — not invoke the handler, as the claim requires. -/
theorem C2_counterexample :
    demo_c2.execute_command ["prog"] = .invalidCommand (.defaultMsg "m")
    ∧ demo_c2.execute_command ["prog"] ≠ .invalidCommand (.defaultFunc [] "") := by
  exact ⟨rfl, by decide⟩

/-- Claim C2 (amended): the response precedence the code implements — for
"command not found" and symmetrically for "invalid arguments" — is:
node-specific handler, else node-specific message, else dispatcher-wide
default MESSAGE, else the (always-present) dispatcher-wide handler. In
particular, when both a dispatcher-wide default handler and a dispatcher-wide
default message have been set, the message is the one shown. -/
theorem C2_amended_response_precedence (cur : dispatch_node_t) (dmsg damsg : String)
    (next : List String) (name : String) :
    (cur.invalid_command_func = true →
      choose_invalid_command_response cur dmsg next name = .nodeFunc)
    ∧ (cur.invalid_command_func = false → cur.invalid_command_msg ≠ "" →
      choose_invalid_command_response cur dmsg next name
        = .nodeMsg cur.invalid_command_msg)
    ∧ (cur.invalid_command_func = false → cur.invalid_command_msg = "" → dmsg ≠ "" →
      choose_invalid_command_response cur dmsg next name = .defaultMsg dmsg)
    ∧ (cur.invalid_command_func = false → cur.invalid_command_msg = "" → dmsg = "" →
      choose_invalid_command_response cur dmsg next name = .defaultFunc next name)
    ∧ (cur.invalid_args_func = true →
      choose_invalid_args_response cur damsg = .nodeFunc)
    ∧ (cur.invalid_args_func = false → cur.invalid_args_msg ≠ "" →
      choose_invalid_args_response cur damsg = .nodeMsg cur.invalid_args_msg)
    ∧ (cur.invalid_args_func = false → cur.invalid_args_msg = "" → damsg ≠ "" →
      choose_invalid_args_response cur damsg = .defaultMsg damsg)
    ∧ (cur.invalid_args_func = false → cur.invalid_args_msg = "" → damsg = "" →
      choose_invalid_args_response cur damsg = .defaultFunc) := by
  refine ⟨?_, ?_, ?_, ?_, ?_, ?_, ?_, ?_⟩
  · intro h1
    simp [choose_invalid_command_response, h1]
  · intro h1 h2
    simp [choose_invalid_command_response, h1, h2]
  · intro h1 h2 h3
    simp [choose_invalid_command_response, h1, h2, h3]
  · intro h1 h2 h3
    simp [choose_invalid_command_response, h1, h2, h3]
  · intro h1
    simp [choose_invalid_args_response, h1]
  · intro h1 h2
    simp [choose_invalid_args_response, h1, h2]
  · intro h1 h2 h3
    simp [choose_invalid_args_response, h1, h2, h3]
  · intro h1 h2 h3
    simp [choose_invalid_args_response, h1, h2, h3]

theorem C2_amended_witness :
    choose_invalid_command_response empty_node "m" ["baz"] "nope"
      = .defaultMsg "m"
    ∧ choose_invalid_args_response empty_node "n" = .defaultMsg "n" :=
  ⟨(C2_amended_response_precedence empty_node "m" "n" ["baz"] "nope").2.2.1
      rfl rfl (by decide),
   (C2_amended_response_precedence empty_node "m" "n" ["baz"] "nope").2.2.2.2.2.2.1
      rfl rfl (by decide)⟩

/-- Dispatcher for the C3 counterexample: one command with a single
`std::string` slot and no declared flags. -/
def demo_c3 : Dispatcher := Dispatcher.empty.add_command ["t"] ["string"]

/-- Claim C3, counterexample: the flag-shaped token `"-bogus"` matches no
declared flag, yet it IS assigned to positional slot 0 (the unknown-flag
branch merely `continue`s without marking the token consumed) and the handler
is invoked with it — silently indistinguishable from a positional argument. -/
theorem C3_counterexample :
    demo_c3.execute_command ["prog", "t", "-bogus"]
      = .executed [Value.vStr "-bogus"] := rfl

/-- Claim C3 (amended): a flag-shaped token whose stripped name matches no
declared flag is skipped by the flag scan without being marked consumed (the
scan continues as if the token were not there), so the token stays unmarked
through the whole scan and participates in positional placement like an
ordinary token; nothing distinct is signalled. -/
theorem C3_amended_unknown_flag_unconsumed (cs : Conversions) (params : List arg_t)
    (tok : String) (rest : List String) (i : Nat) (args : List (Option Value))
    (flagged : List Bool) (attempted : List (List Nat))
    (hshape : (trim_flag tok).length ≠ tok.length)
    (hunknown : find_flag_from params 0 (trim_flag tok) = none) :
    flag_scan cs params (tok :: rest) i args flagged attempted
      = flag_scan cs params rest (i + 1) args flagged attempted
    ∧ (∀ a fl t, flag_scan cs params (tok :: rest) i args flagged attempted
        = ScanResult.ok a fl t → flagged.getD i false = false →
        fl.getD i false = false) := by
  have hstep : flag_scan cs params (tok :: rest) i args flagged attempted
      = flag_scan cs params rest (i + 1) args flagged attempted := by
    simp only [flag_scan, if_neg hshape, hunknown]
  refine ⟨hstep, ?_⟩
  intro a fl t h hinit
  rw [hstep] at h
  rw [flag_scan_lower_flags cs params rest (i + 1) args flagged attempted a fl t i h
    (by omega)]
  exact hinit

theorem C3_amended_witness :
    flag_scan builtin_conversions [⟨[], none, "", "string"⟩] ["-bogus"] 0
        [none] [false] [[]]
      = flag_scan builtin_conversions [⟨[], none, "", "string"⟩] [] 1
        [none] [false] [[]] :=
  (C3_amended_unknown_flag_unconsumed builtin_conversions [⟨[], none, "", "string"⟩]
    "-bogus" [] 0 [none] [false] [[]] (by decide) rfl).1

/-- Dispatcher for the C4 counterexample: one `int` slot with registered
default `300` (`add_default({"t"}, 0, 300)`; `getD` only discharges the
`Option` of the registration API — the registration succeeds). -/
def demo_c4 : Dispatcher :=
  ((Dispatcher.empty.add_command ["t"] ["int"]).add_default ["t"] 0
    (Value.vInt 300)).getD Dispatcher.empty

/-- Claim C4, counterexample: the positional token `"abc"` IS supplied for
slot 0 but its `int` conversion fails, leaving an empty `std::any`; the
default-substitution loop then silently replaces it with the registered
default, and the handler runs with `300` — the claim says the default is
never used when a positional token is supplied. -/
theorem C4_counterexample :
    demo_c4.execute_command ["prog", "t", "abc"] = .executed [Value.vInt 300] := rfl

/-- Claim C4 (amended): after flag/positional assignment, the
default-substitution loop gives slot i the registered default exactly when
the slot holds an empty `std::any` — i.e. when no token filled it, or when
the supplied token's conversion failed; a slot holding a value (a
successfully converted supplied token) is never overwritten by the default. -/
theorem C4_amended_default_substitution (args : List (Option Value))
    (params : List arg_t) (i : Nat) (v : Value) :
    (∀ (hp : i < params.length), i < args.length → args.getD i none = none →
      (fill_defaults args params).getD i none = (params.get ⟨i, hp⟩).defv)
    ∧ (args.getD i none = some v →
      (fill_defaults args params).getD i none = some v) :=
  ⟨fun hp ha h => fill_defaults_fills args params i hp ha h,
   fun h => fill_defaults_keeps v args params i h⟩

theorem C4_amended_witness :
    (fill_defaults [none] [⟨[], some (Value.vInt 300), "", "int"⟩]).getD 0 none
      = some (Value.vInt 300)
    ∧ (fill_defaults [some (Value.vInt 10)]
        [⟨[], some (Value.vInt 300), "", "int"⟩]).getD 0 none
      = some (Value.vInt 10) :=
  ⟨(C4_amended_default_substitution [none] [⟨[], some (Value.vInt 300), "", "int"⟩]
      0 (Value.vInt 300)).1 (by decide) (by decide) rfl,
   (C4_amended_default_substitution [some (Value.vInt 10)]
      [⟨[], some (Value.vInt 300), "", "int"⟩] 0 (Value.vInt 10)).2 rfl⟩

/-- Claim C5 (amended): a matched value flag assigns its pre-registered
fixed value to its slot and marks exactly one token (the flag itself)
consumed; a matched positional flag assigns the conversion of the
immediately following token to its slot and marks exactly two tokens (flag
and value) consumed; and a slot filled by a supplied token — i.e. whose
conversion succeeded — keeps that value through default substitution (only
then does the supplied token take precedence over a registered default; a
token whose conversion fails is rescued by the default, see the
counterexample). Consumption is the `flags[i]` marking, which is exactly
what the positional loop later skips. -/
theorem C5_flag_consumption (cs : Conversions) (params : List arg_t)
    (tok val : String) (rest : List String) (i : Nat) (args : List (Option Value))
    (flagged : List Bool) (attempted : List (List Nat)) (idx : Nat) (p : arg_t)
    (v w : Value) (c : Option Value)
    (hshape : (trim_flag tok).length ≠ tok.length) :
    (find_flag_from params 0 (trim_flag tok) = some (idx, p, some v) →
      flag_scan cs params (tok :: rest) i args flagged attempted
        = flag_scan cs params rest (i + 1) (args.set idx (some v))
            (flagged.set i true) (modify_at attempted idx (fun l => l ++ [i])))
    ∧ (find_flag_from params 0 (trim_flag tok) = some (idx, p, none) →
       Dispatcher.convert cs p.type val = .ok c →
      flag_scan cs params (tok :: val :: rest) i args flagged attempted
        = flag_scan cs params rest (i + 2) (args.set idx c)
            ((flagged.set i true).set (i + 1) true)
            (modify_at (modify_at attempted idx (fun l => l ++ [i])) idx
              (fun l => l ++ [i + 1])))
    ∧ (args.getD idx none = some w →
      (fill_defaults args params).getD idx none = some w) := by
  refine ⟨?_, ?_, fun h => fill_defaults_keeps w args params idx h⟩
  · intro hff
    simp only [flag_scan, if_neg hshape, hff]
  · intro hff hcv
    simp only [flag_scan, if_neg hshape, hff, hcv]

theorem C5_flag_consumption_witness :
    flag_scan builtin_conversions [⟨[("v", some (Value.vInt 500))], none, "", "int"⟩]
        ["-v"] 0 [none] [false] [[]]
      = flag_scan builtin_conversions [⟨[("v", some (Value.vInt 500))], none, "", "int"⟩]
        [] 1 [some (Value.vInt 500)] [true] [[0]]
    ∧ flag_scan builtin_conversions
        [⟨[], none, "", "int"⟩, ⟨[("y", none)], none, "", "int"⟩]
        ["-y", "20"] 0 [none, none] [false, false] [[], []]
      = flag_scan builtin_conversions
        [⟨[], none, "", "int"⟩, ⟨[("y", none)], none, "", "int"⟩]
        [] 2 [none, some (Value.vInt 20)] [true, true] [[], [0, 1]]
    ∧ (fill_defaults [some (Value.vInt 20)]
        [⟨[], some (Value.vInt 300), "", "int"⟩]).getD 0 none
      = some (Value.vInt 20) :=
  ⟨(C5_flag_consumption builtin_conversions
      [⟨[("v", some (Value.vInt 500))], none, "", "int"⟩] "-v" "" [] 0 [none]
      [false] [[]] 0 ⟨[("v", some (Value.vInt 500))], none, "", "int"⟩
      (Value.vInt 500) (Value.vInt 500) none (by decide)).1 rfl,
   (C5_flag_consumption builtin_conversions
      [⟨[], none, "", "int"⟩, ⟨[("y", none)], none, "", "int"⟩] "-y" "20" [] 0
      [none, none] [false, false] [[], []] 1 ⟨[("y", none)], none, "", "int"⟩
      (Value.vInt 20) (Value.vInt 20) (some (Value.vInt 20)) (by decide)).2.1 rfl rfl,
   (C5_flag_consumption builtin_conversions
      [⟨[], some (Value.vInt 300), "", "int"⟩] "-z" "" [] 0 [some (Value.vInt 20)]
      [false] [[]] 0 ⟨[], some (Value.vInt 300), "", "int"⟩
      (Value.vInt 20) (Value.vInt 20) none (by decide)).2.2 rfl⟩

/-- Claim C6: on a command-not-found condition, the default handler's
suggestion list (`find_close(next, name, 2)`) contains a sibling label iff
the Levenshtein distance (Mathlib's `levenshtein` with unit costs — the
minimum number of single-character insert/delete/substitute operations)
between that label and the unmatched token is at most 2; and when zero
sibling labels qualify, the full sibling label list is shown instead. -/
theorem C6_suggestion_threshold (next : List String) (name : String) (lbl : String) :
    (lbl ∈ Dispatcher.find_close next name 2 ↔
      lbl ∈ next ∧ levenshtein Levenshtein.defaultCost lbl.data name.data ≤ 2)
    ∧ (Dispatcher.find_close next name 2 = [] →
      invalid_command_suggestions next name = next)
    ∧ (Dispatcher.find_close next name 2 ≠ [] →
      invalid_command_suggestions next name = Dispatcher.find_close next name 2) := by
  refine ⟨?_, ?_, ?_⟩
  · rw [Dispatcher.find_close, List.mem_filter]
    simp [dispatcher_levenshtein_eq]
  · intro h
    simp [invalid_command_suggestions, h]
  · intro h
    rw [invalid_command_suggestions]
    rw [if_neg (by simpa [List.isEmpty_iff] using h)]

theorem C6_suggestion_threshold_witness :
    ("abc" ∈ Dispatcher.find_close ["abc"] "" 2 ↔
      "abc" ∈ ["abc"] ∧ levenshtein Levenshtein.defaultCost "abc".data "".data ≤ 2)
    ∧ invalid_command_suggestions ["abc"] "" = ["abc"] :=
  ⟨(C6_suggestion_threshold ["abc"] "" "abc").1,
   (C6_suggestion_threshold ["abc"] "" "abc").2.1
     (by simp [Dispatcher.find_close, Dispatcher.levenshtein])⟩

/-- Claim C7: `convert` on a type with no registered converter fails loudly
(throws `std::logic_error`, the `Except.error` — a configuration error) and
never yields a per-argument result; with a registered converter, the
converter is invoked with any internal failure caught and reported as a
per-argument conversion failure (an empty `std::any`, `Except.ok none`) —
never propagated as a crash (`Except.error`). The two failure modes are
distinct constructors. -/
theorem C7_convert_failure_modes (cs : Conversions) (ty : TypeId) (s : String) :
    (lookup_conversion cs ty = none →
      Dispatcher.convert cs ty s
        = .error ("Missing proper conversion for argument " ++ s ++ ".")
      ∧ ∀ o, Dispatcher.convert cs ty s ≠ .ok o)
    ∧ (∀ f, lookup_conversion cs ty = some f →
      Dispatcher.convert cs ty s = .ok (f s)
      ∧ ∀ m, Dispatcher.convert cs ty s ≠ .error m) := by
  constructor
  · intro h
    constructor
    · simp [Dispatcher.convert, h]
    · intro o
      simp [Dispatcher.convert, h]
  · intro f h
    constructor
    · simp [Dispatcher.convert, h]
    · intro m
      simp [Dispatcher.convert, h]

theorem C7_convert_failure_modes_witness :
    Dispatcher.convert builtin_conversions "custom" "5"
      = .error ("Missing proper conversion for argument 5.")
    ∧ Dispatcher.convert builtin_conversions "int" "abc" = .ok none
    ∧ Dispatcher.convert builtin_conversions "int" "abc"
        ≠ .error ("Missing proper conversion for argument abc.") := by
  refine ⟨?_, ?_, ?_⟩
  · exact ((C7_convert_failure_modes builtin_conversions "custom" "5").1 rfl).1
  · exact ((C7_convert_failure_modes builtin_conversions "int" "abc").2
      (fun s => (stoi s).map Value.vInt) rfl).1
  · exact ((C7_convert_failure_modes builtin_conversions "int" "abc").2
      (fun s => (stoi s).map Value.vInt) rfl).2
      ("Missing proper conversion for argument abc.")

/-- Dispatcher for the C9 evaluation: the AliasTest registration
`add_command({"bar","baz","foo"}, handler)`. -/
def demo_c9 : Dispatcher := Dispatcher.empty.add_command ["bar", "baz", "foo"] []

/-- Claim C9 is right and the code is wrong (`add_alias`, source lines
946-955): the saved `orig` (the terminal segment) is never used; after
`pop_back` the code looks up `path[path.size()-1]` — the SECOND-TO-LAST
segment — among the children of the parent node, so
`add_alias({"bar","baz","foo"}, "f")` searches for `"baz"` among the children
of the `baz` node (which are `{foo}`), finds nothing, and throws
`logic_error("Failed to alias ...")` instead of inserting the alias. For a
single-segment path, `path[path.size()-1]` even indexes an empty vector
(undefined behaviour). The alias is never inserted, so dispatching with the
alias cannot resolve to the original node — contradicting the repository's
own AliasTest. -/
theorem C9_alias_bug :
    demo_c9.add_alias ["bar", "baz", "foo"] "f" = .error .aliasFailed
    ∧ demo_c9.add_alias ["bar"] "b" = .error .emptyPathIndex := ⟨rfl, rfl⟩

/-- Dispatcher for the C10 evaluation: a zero-arity command at `{"t"}`. -/
def demo_c10 : Dispatcher := Dispatcher.empty.add_command ["t"] []

/-- Claim C10 is right and the code is wrong (positional loop, source lines
879-889): with a zero-arity command and one extra trailing token, the
skipping `while` stops with `idx == args.size()` and the subsequent
`args[idx] = convert(cur->args[idx].type, names[i]);` indexes both vectors at
their size — an out-of-bounds access (undefined behaviour) instead of an
index strictly below the command's arity. -/
theorem C10_positional_oob :
    demo_c10.execute_command ["prog", "t", "x"] = .outOfBounds := rfl

/-- Dispatcher for the C5 counterexample: two `int` slots, positional flag
`y` on slot 1, and a registered default `300` on slot 1. -/
def demo_c5 : Dispatcher :=
  (((Dispatcher.empty.add_command ["t"] ["int", "int"]).add_positional_flag
      ["t"] 1 "y").bind
    (fun d => d.add_default ["t"] 1 (Value.vInt 300))).getD Dispatcher.empty

/-- Claim C5, counterexample: the matched positional flag `-y` consumes the
following token `"abc"` for slot 1, but its `int` conversion fails and the
registered default `300` is used for that slot anyway — the supplied token
does not take precedence over the registered default. -/
theorem C5_counterexample :
    demo_c5.execute_command ["prog", "t", "-y", "abc", "7"]
      = .executed [Value.vInt 7, Value.vInt 300] := rfl
